import Mathlib

/-!
Verification development for the Hemist multi-agent content pipeline.

Shallow embedding of the coordination layer:
* `app/core/state_machine.py` — workflow states, context, phase graph routing;
* `app/core/workflow_orchestrator.py` — execution records and the background
  retry loop;
* `app/core/memory_manager.py` — content-addressed store and cosine retrieval;
* `app/core/base_agent.py` — agent lifecycle and the execute retry loop;
* `app/core/agent_communication.py` — hub registry, mailboxes, send/broadcast.

Wall-clock timestamp fields (`created_at`, `updated_at`, `start_time`,
`end_time`, `last_activity`) carry no control-flow weight except for message
expiry; expiry is modelled by an explicit `now : Nat` tick passed to the
operations that consult the clock.  Logging calls are side-effect free and
dropped.  Python float arithmetic is modelled over ℚ where only clamping and
comparisons occur, and over ℝ for the cosine-similarity mathematics.
-/

namespace Hemist

/-! ## Workflow state machine (`app/core/state_machine.py`) -/

/-- `WorkflowState` enum (state_machine.py lines 16-23). -/
inductive WorkflowState where
  | pending
  | researching
  | writing
  | editing
  | completed
  | error
deriving DecidableEq, Repr

/-- One research source dict as built by the research phase
(state_machine.py lines 143-145). -/
structure ResearchSource where
  title : String
  url : String
  content : String
deriving DecidableEq, Repr

/-- `WorkflowContext` dataclass (state_machine.py lines 25-49).
`created_at`/`updated_at` timestamps are omitted (wall clock only). -/
structure WorkflowContext where
  workflow_id : String
  topic : String
  target_length : Nat := 1500
  quality_threshold : ℚ := 8/10
  research_sources : List ResearchSource := []
  key_insights : List String := []
  draft_content : String := ""
  word_count : Nat := 0
  final_content : String := ""
  quality_score : ℚ := 0
  current_state : WorkflowState := .pending
  error_message : Option String := none
deriving DecidableEq, Repr

/-- Python truthiness of `state.error_message` as tested by
`_should_continue` (state_machine.py line 132): `None` and the empty
string are falsy, any other string is truthy. -/
def hasError (c : WorkflowContext) : Bool :=
  match c.error_message with
  | none => false
  | some s => s ≠ ""

/-- `_should_continue` (state_machine.py lines 130-134). -/
def shouldContinue (c : WorkflowContext) : String :=
  if hasError c then "error" else "continue"

/-- Graph nodes added by `_build_graph` (state_machine.py lines 76-80). -/
inductive PhaseNode where
  | research
  | write
  | edit
  | complete
  | errorHandler
deriving DecidableEq, Repr

/-- `_research_phase` (state_machine.py lines 136-154): the concrete stub
body; its `try` body cannot raise, so the handler never sets an error. -/
def researchPhase (c : WorkflowContext) : WorkflowContext :=
  { c with
    current_state := .researching
    research_sources :=
      [⟨"Sample Research Source", "https://example.com", "Sample content"⟩]
    key_insights := ["Key insight 1", "Key insight 2"] }

/-- `_write_phase` (state_machine.py lines 156-172); Python
`str.split()` splits on whitespace runs and drops empty pieces. -/
def writePhase (c : WorkflowContext) : WorkflowContext :=
  let draft := "Sample content about " ++ c.topic ++
    ". This is a draft with approximately " ++ toString c.target_length ++ " words."
  { c with
    current_state := .writing
    draft_content := draft
    word_count := ((draft.split Char.isWhitespace).filter (· ≠ "")).length }

/-- `_edit_phase` (state_machine.py lines 174-190). -/
def editPhase (c : WorkflowContext) : WorkflowContext :=
  { c with
    current_state := .editing
    final_content := c.draft_content ++ " [Edited and optimized]"
    quality_score := 85/100 }

/-- `_complete_phase` (state_machine.py lines 192-207). -/
def completePhase (c : WorkflowContext) : WorkflowContext :=
  { c with current_state := .completed }

/-- `_error_handler` (state_machine.py lines 209-213). -/
def errorHandler (c : WorkflowContext) : WorkflowContext :=
  { c with current_state := .error }

/-- The graph engine's concurrent-update exception, by its class name:
when two nodes of one superstep write the same state channel and the
channel has no reducer (the `WorkflowContext` dataclass fields have
none), applying their writes raises `InvalidUpdateError`. -/
def invalidUpdateError : String := "InvalidUpdateError"

/-- The compiled phase graph (`_build_graph`, state_machine.py lines
70-128) run on one context, parameterised by the three working-phase
handlers (in the source they delegate the external work; the claims
quantify over that work).  `_build_graph` wires BOTH the unconditional
edges research→write, write→edit, edit→complete (lines 86-95) AND, from
the same three nodes, conditional edges driven by `_should_continue`
(lines 101-126).  In the engine's superstep semantics each fires after
its source node: on the `continue` branch both triggers point at the
next phase, which is deduplicated and runs once; on the `error` branch
the next phase (via the static edge) and `error_handler` (via the
branch) BOTH run in the following superstep on the same error-bearing
context, each returns the full state, and their conflicting writes to
the reducer-less channels abort the run with `InvalidUpdateError`
before any further superstep.  Returns the run's outcome — the final
context, or the engine's exception — and the executed nodes, supersteps
in order and the conflicting superstep's pair in node-registration
order. -/
def runPipeline (fr fw fe : WorkflowContext → WorkflowContext)
    (c0 : WorkflowContext) : Except String WorkflowContext × List PhaseNode :=
  let c1 := fr c0
  if hasError c1 then
    (.error invalidUpdateError, [.research, .write, .errorHandler])
  else
    let c2 := fw c1
    if hasError c2 then
      (.error invalidUpdateError, [.research, .write, .edit, .errorHandler])
    else
      let c3 := fe c2
      if hasError c3 then
        (.error invalidUpdateError,
          [.research, .write, .edit, .complete, .errorHandler])
      else
        (.ok (completePhase c3), [.research, .write, .edit, .complete])

/-- `self.graph.ainvoke(context)` with the source's concrete stub
handlers (state_machine.py line 231); the stubs never set an error, so
the run always completes. -/
def graphAinvoke (c : WorkflowContext) : Except String WorkflowContext :=
  (runPipeline researchPhase writePhase editPhase c).1

/-- The context allocated by `execute_workflow`
(state_machine.py lines 220-225); the generated time-based id is passed
in as `wid`. -/
def freshContext (wid topic : String) (target_length : Nat)
    (quality_threshold : ℚ) : WorkflowContext :=
  { workflow_id := wid
    topic := topic
    target_length := target_length
    quality_threshold := quality_threshold }

/-- `WorkflowStateMachine.execute_workflow` (state_machine.py lines
215-239): runs `self.graph.ainvoke(context)` and, if that call raises,
catches the exception, stores `Workflow execution failed: e` on the
context and marks it Error — it returns a context in every case and
never raises.  `ainvoke` is passed in as an `Except` outcome so that the
exception path (graph-engine failure) is expressible. -/
def smExecuteWorkflow (ainvoke : WorkflowContext → Except String WorkflowContext)
    (wid topic : String) (target_length : Nat) (quality_threshold : ℚ) :
    WorkflowContext :=
  let context := freshContext wid topic target_length quality_threshold
  match ainvoke context with
  | .ok result => result
  | .error e =>
      errorHandler { context with
        error_message := some ("Workflow execution failed: " ++ e) }

/-! ## Workflow orchestrator (`app/core/workflow_orchestrator.py`) -/

/-- `WorkflowExecution` dataclass (workflow_orchestrator.py lines 37-48);
`start_time`/`end_time`/`current_agent`/`metadata` are omitted (no
control flow reads them). -/
structure WorkflowExecution where
  execution_id : String
  workflow_id : String
  status : String := "pending"
  progress : ℚ := 0
  error_message : Option String := none
deriving DecidableEq, Repr

/-- The retry loop of `_execute_workflow_background_traced`
(workflow_orchestrator.py lines 173-215): `while retries <= max_retries`,
the body marks the execution running, awaits the state-machine call
(modelled per attempt by `smRun`, which may raise), on success marks the
execution completed with progress 1.0 and returns, and on an exception
marks it error, increments `retries`, sleeps and loops — or re-raises
once the budget is spent.  Result: the final execution record paired
with the uncaught exception, if any.  `fuel` bounds the recursion; the
call site supplies `maxRetries - retries + 1`, which the loop never
exhausts. -/
def orchLoop (smRun : Nat → Except String WorkflowContext) (maxRetries : Nat) :
    Nat → Nat → WorkflowExecution → WorkflowExecution × Option String
  | 0, _, exec => (exec, none)
  | fuel + 1, retries, exec =>
    if retries ≤ maxRetries then
      let running := { exec with status := "running" }
      match smRun retries with
      | .ok _result => ({ running with status := "completed", progress := 1 }, none)
      | .error e =>
        let failed := { running with status := "error", error_message := some e }
        if retries + 1 ≤ maxRetries then
          orchLoop smRun maxRetries fuel (retries + 1) failed
        else
          (failed, some e)
    else
      (exec, none)

/-- `_execute_workflow_background_traced` (workflow_orchestrator.py lines
169-215) applied to the execution record: `max_retries = 3`,
and each attempt awaits `state_machine.execute_workflow`, whose graph
call has the per-attempt outcome `aRun n`.  Since `smExecuteWorkflow`
catches everything and returns normally, every attempt is an `.ok`. -/
def backgroundTask (aRun : Nat → Except String WorkflowContext)
    (wid topic : String) (target_length : Nat) (quality_threshold : ℚ)
    (exec : WorkflowExecution) : WorkflowExecution × Option String :=
  orchLoop
    (fun n => .ok (smExecuteWorkflow (fun _ => aRun n) wid topic
      target_length quality_threshold))
    3 4 0 exec

/-! ## Memory manager (`app/core/memory_manager.py`) -/

/-- One stored memory dict as built by `store_memory`
(memory_manager.py lines 54-63); `created_at` is omitted (wall clock).
The embedding type is a parameter: the store logic never inspects it. -/
structure Memory (V : Type) where
  id : String
  content : String
  memory_type : String
  importance_score : ℚ
  metadata : List (String × String)
  agent_id : Option String
  embedding : V
deriving DecidableEq, Repr

/-- `self.memories`: a Python dict keyed by content hash, i.e. an
insertion-ordered association list with distinct keys. -/
abbrev MemoryStore (V : Type) := List (String × Memory V)

/-- The keys of the store, in insertion order. -/
def storeKeys (st : MemoryStore V) : List String :=
  st.map Prod.fst

/-- `store_memory` (memory_manager.py lines 37-74).  `hash` models
`_generate_content_hash` (SHA-256 of the content, lines 33-35) and
`embed` models `_generate_embedding` (lines 144-169, total: every
failure path returns a fallback vector); both are deterministic
functions of the content.  An existing hash makes the call a no-op
returning that hash; otherwise the entry is appended under its hash. -/
def storeMemory (hash : String → String) (embed : String → V)
    (st : MemoryStore V) (content memory_type : String) (importance : ℚ)
    (metadata : List (String × String)) (agent_id : Option String) :
    String × MemoryStore V :=
  let h := hash content
  match st.lookup h with
  | some _ => (h, st)
  | none =>
      (h, st ++ [(h, ⟨h, content, memory_type, importance, metadata,
        agent_id, embed content⟩)])

/-- `np.dot(vec1, vec2)` on list-encoded vectors. -/
def dotList (a b : List ℝ) : ℝ :=
  (List.zipWith (fun x y => x * y) a b).sum

/-- Sum of squares of the entries (the square of the Euclidean norm). -/
def normSqList (a : List ℝ) : ℝ :=
  (a.map (fun x => x * x)).sum

/-- `np.linalg.norm(vec)`: the Euclidean norm. -/
noncomputable def normList (a : List ℝ) : ℝ :=
  Real.sqrt (normSqList a)

open Classical in
/-- `_cosine_similarity` (memory_manager.py lines 215-234): 0 when either
norm is zero, otherwise the dot product divided by the product of the
norms.  Python float arithmetic is idealised over ℝ. -/
noncomputable def cosineSim (a b : List ℝ) : ℝ :=
  if normList a = 0 ∨ normList b = 0 then 0
  else dotList a b / (normList a * normList b)

/-- The type filter of `retrieve_similar_memories`
(memory_manager.py lines 184-186): skip a memory only when a truthy
`memory_type` was supplied and differs from the memory's type. -/
def typeKeep (memory_type : Option String) (m : Memory V) : Bool :=
  match memory_type with
  | none => true
  | some t => t = "" || m.memory_type = t

open Classical in
/-- `retrieve_similar_memories` (memory_manager.py lines 171-213):
embed the query, score every stored memory by cosine similarity, keep
those with similarity at or above the threshold, sort by similarity
descending, truncate to `limit`; each result carries its
`similarity_score`. -/
noncomputable def retrieveSimilarMemories (embed : String → List ℝ)
    (st : MemoryStore (List ℝ)) (query : String)
    (memory_type : Option String) (limit : Nat) (threshold : ℝ) :
    List (Memory (List ℝ) × ℝ) :=
  if st.isEmpty then []
  else
    let qe := embed query
    let sims := (st.map (fun p => (p.2, cosineSim qe p.2.embedding))).filter
      (fun q => typeKeep memory_type q.1 && decide (threshold ≤ q.2))
    let sorted := sims.mergeSort (fun x y => decide (y.2 ≤ x.2))
    sorted.take limit

/-! ## Agent runtime (`app/core/base_agent.py`) -/

/-- `AgentStatus` enum (base_agent.py lines 25-30). -/
inductive AgentStatus where
  | idle
  | busy
  | error
  | completed
deriving DecidableEq, Repr

/-- `AgentState` dataclass (base_agent.py lines 50-59); `last_activity`
and `metadata` are omitted (wall clock / unread). -/
structure AgentState where
  agent_id : String
  status : AgentStatus := .idle
  current_task : Option String := none
  task_progress : ℚ := 0
  error_message : Option String := none
deriving DecidableEq, Repr

/-- The fresh `AgentState(agent_id=...)` built at construction and by
`reset` (base_agent.py lines 70 and 321). -/
def initialAgentState (agent_id : String) : AgentState :=
  { agent_id := agent_id }

/-- Python `context or 'execution'` in `handle_error`
(base_agent.py line 200). -/
def orExecution (ctx : Option String) : String :=
  match ctx with
  | none => "execution"
  | some s => if s = "" then "execution" else s

/-- The lifecycle mutations of `AgentState` (base_agent.py):
`start_task` (146-159), `update_progress` (161-171, clamping into
[0,1]), `complete_task` (173-195), `handle_error` (197-219) and `reset`
(316-326).  The sibling writes to `self.status` mirror `state.status`
and the memory side effects do not touch the state. -/
inductive LifecycleOp where
  | startTask (desc : String)
  | updateProgress (p : ℚ)
  | completeTask
  | handleError (ctx : Option String) (msg : String)
  | reset

/-- One lifecycle method applied to the agent state. -/
def applyLifecycle (s : AgentState) : LifecycleOp → AgentState
  | .startTask d =>
      { s with status := .busy, current_task := some d, task_progress := 0 }
  | .updateProgress p =>
      { s with task_progress := max 0 (min 1 p) }
  | .completeTask =>
      { s with status := .completed, task_progress := 1 }
  | .handleError ctx msg =>
      { s with status := .error
               error_message := some ("Error in " ++ orExecution ctx ++ ": " ++ msg) }
  | .reset => initialAgentState s.agent_id

/-- Substring containment on character lists: the pattern is a prefix of
some suffix of the haystack. -/
def listContains : List Char → List Char → Bool
  | hay, pat =>
    pat.isPrefixOf hay ||
      match hay with
      | [] => false
      | _ :: t => listContains t pat

/-- Python `pat in hay` substring containment. -/
def strContains (hay pat : String) : Bool :=
  listContains hay.toList pat.toList

/-- The keyword test of `execute`'s tracing fallback
(base_agent.py line 101): the exception message mentions the tracing
service. -/
def mentionsTracing (e : String) : Bool :=
  strContains e "API key" || strContains e "LangSmith"

/-- Observable outcome of `BaseAgent.execute`: the returned value or the
propagated exception, the number of `_execute_impl` invocations, and the
backoff sleeps (in seconds) in order of occurrence. -/
structure ExecTrace (α : Type) where
  result : Except String α
  calls : Nat
  sleeps : List Nat
deriving Repr

/-- The inner try block of one `execute` loop iteration (base_agent.py
lines 94-106): run `_execute_impl` inside the tracing span; if it raises
and the message mentions the tracing service, run `_execute_impl` once
more without tracing (that second exception, if any, reaches the outer
handler); otherwise the exception reaches the outer handler directly.
`impl` is indexed by invocation count; the pair returned is the block's
outcome and how many invocations it made. -/
def agentAttempt (impl : Nat → Except String α) (callIdx : Nat) :
    Except String α × Nat :=
  match impl callIdx with
  | .ok v => (.ok v, 1)
  | .error e =>
    if mentionsTracing e then
      match impl (callIdx + 1) with
      | .ok v => (.ok v, 2)
      | .error e2 => (.error e2, 2)
    else
      (.error e, 1)

/-- The `while retries <= max_retries` loop of `execute`
(base_agent.py lines 92-121): on success return the result; on an
exception run `handle_error`, and if `retries < max_retries` increment
`retries`, sleep `2 * 2 ^ (retries - 1)` seconds and loop, else re-raise.
`fuel` counts the remaining loop iterations (`maxRetries + 1` at entry);
exhausting it is the unreachable fall-through that raises at line 121. -/
def agentExecLoop (impl : Nat → Except String α) (maxRetries : Nat) :
    Nat → Nat → Nat → List Nat → ExecTrace α
  | 0, _, calls, sleeps =>
      ⟨.error "Unexpected state in agent execution retry loop.", calls, sleeps⟩
  | fuel + 1, retries, calls, sleeps =>
    match agentAttempt impl calls with
    | (.ok v, n) => ⟨.ok v, calls + n, sleeps⟩
    | (.error e, n) =>
      if retries < maxRetries then
        agentExecLoop impl maxRetries fuel (retries + 1) (calls + n)
          (sleeps ++ [2 * 2 ^ retries])
      else
        ⟨.error e, calls + n, sleeps⟩

/-- `BaseAgent.execute` (base_agent.py lines 82-121): `max_retries = 3`,
initial backoff delay 2 seconds. -/
def agentExecute (impl : Nat → Except String α) : ExecTrace α :=
  agentExecLoop impl 3 4 0 0 []

/-! ## Communication hub (`app/core/agent_communication.py`) -/

/-- `MessageType` enum (agent_communication.py lines 17-25). -/
inductive MsgType where
  | task_request
  | task_response
  | status_update
  | error_notification
  | memory_share
  | workflow_event
  | coordination
deriving DecidableEq, Repr

/-- `MessagePriority` enum (agent_communication.py lines 27-32). -/
inductive MsgPriority where
  | low
  | normal
  | high
  | urgent
deriving DecidableEq, Repr

/-- `AgentMessage` dataclass (agent_communication.py lines 34-47).
`uuid4` ids are modelled by naturals drawn from the hub's counter;
`created_at` is omitted and `expires_at` is an absolute tick compared
against the `now` passed to the sending operation. -/
structure AgentMsg where
  id : Nat
  sender_id : String := ""
  recipient_id : String := ""
  message_type : MsgType := .coordination
  priority : MsgPriority := .normal
  content : List (String × String) := []
  metadata : List (String × String) := []
  expires_at : Option Nat := none
  delivered : Bool := false
  acknowledged : Bool := false
deriving DecidableEq, Repr

/-- `AgentCommunicationHub` state (agent_communication.py lines 52-57):
the agent directory, the per-agent FIFO mailboxes and the per-agent
handler lists (modelled by their length), all insertion-ordered dicts;
`next_id` is the fresh-id counter standing in for the `uuid4` source.
`broadcast_handlers` and `running` play no part in the claims. -/
structure Hub where
  agents : List (String × String) := []
  message_queues : List (String × List AgentMsg) := []
  message_handlers : List (String × Nat) := []
  next_id : Nat := 0
deriving DecidableEq, Repr

/-- `register_agent` (agent_communication.py lines 61-90): a duplicate id
is rejected with everything unchanged; otherwise a fresh empty mailbox
and handler list are created (the optional handler appended) and the
agent is added to the directory. -/
def hubRegister (h : Hub) (agent_id agent_name : String)
    (withHandler : Bool) : Bool × Hub :=
  if (h.agents.lookup agent_id).isSome then
    (false, h)
  else
    (true, { h with
      message_queues := h.message_queues ++ [(agent_id, [])]
      message_handlers :=
        h.message_handlers ++ [(agent_id, if withHandler then 1 else 0)]
      agents := h.agents ++ [(agent_id, agent_name)] })

/-- `unregister_agent` (agent_communication.py lines 92-115): an unknown
id is rejected with everything unchanged; otherwise the agent's entry is
deleted from the directory, its mailbox and its handler list. -/
def hubUnregister (h : Hub) (agent_id : String) : Bool × Hub :=
  if (h.agents.lookup agent_id).isNone then
    (false, h)
  else
    (true, { h with
      agents := h.agents.eraseP (fun p => p.1 == agent_id)
      message_queues := h.message_queues.eraseP (fun p => p.1 == agent_id)
      message_handlers := h.message_handlers.eraseP (fun p => p.1 == agent_id) })

/-- The expiry test of `send_message` (agent_communication.py line 125):
`message.expires_at and utcnow() > message.expires_at`. -/
def msgExpired (now : Nat) (m : AgentMsg) : Bool :=
  match m.expires_at with
  | none => false
  | some t => now > t

/-- `send_message` (agent_communication.py lines 117-137): fail
(non-fatally) when the recipient is unregistered or the message has
expired; otherwise append the message to the recipient's mailbox.  The
`lookup` on `message_queues` models the `KeyError` path of a missing
mailbox, which the catch-all turns into `False`. -/
def hubSend (h : Hub) (now : Nat) (msg : AgentMsg) : Bool × Hub :=
  if (h.agents.lookup msg.recipient_id).isNone then
    (false, h)
  else if msgExpired now msg then
    (false, h)
  else
    match h.message_queues.lookup msg.recipient_id with
    | none => (false, h)
    | some _ =>
      (true, { h with
        message_queues := h.message_queues.map fun p =>
          if p.1 = msg.recipient_id then (p.1, p.2 ++ [msg]) else p })

/-- The per-recipient copy built by `broadcast_message`
(agent_communication.py lines 149-158): a fresh id, the recipient set,
and the sender, type, priority, content, metadata and expiry carried
over; the delivery flags take their defaults. -/
def mkBroadcastCopy (msg : AgentMsg) (recipient : String) (fresh : Nat) :
    AgentMsg :=
  { id := fresh
    sender_id := msg.sender_id
    recipient_id := recipient
    message_type := msg.message_type
    priority := msg.priority
    content := msg.content
    metadata := msg.metadata
    expires_at := msg.expires_at }

/-- `broadcast_message` (agent_communication.py lines 139-168): iterate
over the registered agents in directory order, skip the sender when
`exclude_sender`, draw a fresh id, build the copy, send it, and count
the successful sends. -/
def hubBroadcast (h : Hub) (now : Nat) (msg : AgentMsg)
    (exclude_sender : Bool) : Nat × Hub :=
  h.agents.foldl
    (fun acc p =>
      if exclude_sender && p.1 == msg.sender_id then acc
      else
        let copy := mkBroadcastCopy msg p.1 acc.2.next_id
        let withId := { acc.2 with next_id := acc.2.next_id + 1 }
        let sent := hubSend withId now copy
        (if sent.1 then acc.1 + 1 else acc.1, sent.2))
    (0, h)

/-- `get_messages` (agent_communication.py lines 170-191): an unknown
mailbox yields `[]`; otherwise every queued message is drained in FIFO
order (the queue is non-empty at each `get`, so the per-item timeout
never fires) and the mailbox is left empty. -/
def hubGetMessages (h : Hub) (agent_id : String) :
    List AgentMsg × Hub :=
  match h.message_queues.lookup agent_id with
  | none => ([], h)
  | some q =>
    (q, { h with
      message_queues := h.message_queues.map fun p =>
        if p.1 = agent_id then (p.1, []) else p })

/-- A registration-layer call on the hub, for stating the directory
invariants of C10. -/
inductive HubOp where
  | register (agent_id agent_name : String) (withHandler : Bool)
  | unregister (agent_id : String)

/-- Apply one registration-layer call, keeping the resulting hub. -/
def applyHubOp (h : Hub) : HubOp → Hub
  | .register i n w => (hubRegister h i n w).2
  | .unregister i => (hubUnregister h i).2

/-- The hub as constructed (`AgentCommunicationHub.__init__`,
agent_communication.py lines 52-57): empty directory, no mailboxes, no
handlers. -/
def emptyHub : Hub := {}

/-- The directory, the mailbox map and the handler map have identical key
sequences. -/
def hubKeysEq (h : Hub) : Prop :=
  h.agents.map Prod.fst = h.message_queues.map Prod.fst ∧
  h.agents.map Prod.fst = h.message_handlers.map Prod.fst

/-! ## Claim C1: orchestrator failure semantics -/

/-- C1 counterexample: a run whose graph invocation raises `boom` is
returned by `WorkflowStateMachine.execute_workflow` as a context in the
terminal Error state with its message populated — yet the orchestrator's
background task reports the execution as status `completed`, not
`error`.  The claim that such an execution is never reported
`completed` is therefore false on the code. -/
theorem c1_error_run_marked_completed_cex :
    (smExecuteWorkflow (fun _ => .error "boom") "w1" "t" 1500 (8/10)).current_state
        = WorkflowState.error ∧
    (smExecuteWorkflow (fun _ => .error "boom") "w1" "t" 1500 (8/10)).error_message
        = some "Workflow execution failed: boom" ∧
    (backgroundTask (fun _ => .error "boom") "w1" "t" 1500 (8/10)
        { execution_id := "e1", workflow_id := "w1" }).1.status = "completed" ∧
    ¬ (backgroundTask (fun _ => .error "boom") "w1" "t" 1500 (8/10)
        { execution_id := "e1", workflow_id := "w1" }).1.status = "error" :=
  ⟨by decide, by decide, by decide, by decide⟩

/-- C1 (amended): `WorkflowStateMachine.execute_workflow` catches every
exception from the run and returns the Error-marked context instead of
raising, so whatever the graph invocation does on each attempt — return
normally, or raise so that the run ends in the Error state — the
orchestrator's background task observes a normal return on its first
attempt and always leaves the execution in status `completed` with
progress 1.0, its `error_message` untouched and no exception escaping;
the retry loop and the terminal `error` status are unreachable through
the state-machine call. -/
theorem c1_background_task_always_completes
    (aRun : Nat → Except String WorkflowContext) (wid topic : String)
    (target_length : Nat) (quality_threshold : ℚ) (exec : WorkflowExecution) :
    (backgroundTask aRun wid topic target_length quality_threshold exec).1.status
        = "completed" ∧
    (backgroundTask aRun wid topic target_length quality_threshold exec).1.progress
        = 1 ∧
    (backgroundTask aRun wid topic target_length quality_threshold exec).1.error_message
        = exec.error_message ∧
    (backgroundTask aRun wid topic target_length quality_threshold exec).2 = none :=
  ⟨rfl, rfl, rfl, rfl⟩

/-! ## Claim C2: what an erroring phase actually does to the pipeline -/

/-- C2 counterexample: a run in which the research handler sets
`error_message` nevertheless executes the later `write` handler — the
unconditional edge research→write fires alongside the error branch, so
the executed-node list contains `write` after the erroring `research`.
The claim that no later phase handler executes is therefore false on
the code. -/
theorem c2_later_phase_executes_cex :
    hasError ((fun c => { c with error_message := some "Research failed: boom" })
      ({ workflow_id := "w1", topic := "t" } : WorkflowContext)) = true ∧
    (runPipeline
      (fun c => { c with error_message := some "Research failed: boom" })
      id id { workflow_id := "w1", topic := "t" }).2
      = [PhaseNode.research, PhaseNode.write, PhaseNode.errorHandler] ∧
    PhaseNode.write ∈ (runPipeline
      (fun c => { c with error_message := some "Research failed: boom" })
      id id { workflow_id := "w1", topic := "t" }).2 :=
  ⟨by decide, by decide, by decide⟩

/-- C2 (amended): in any run of the compiled phase graph on the fresh
context, if the phase work sets a (truthy) `error_message`, the error
branch and the unconditional next-phase edge fire together: the next
phase handler in the pipeline executes once more on the error-bearing
context (`write` after an erroring `research`, `edit` after an erroring
`write`, `complete` after an erroring `edit`), the two tasks'
conflicting full-state writes abort the graph run with an
`InvalidUpdateError`, and `execute_workflow` catches that exception and
returns the context marked with the terminal Error state and a
populated error message; no phase beyond that next handler executes.
The executed-node lists are stated exactly. -/
theorem c2_error_runs_next_phase_then_aborts
    (fr fw fe : WorkflowContext → WorkflowContext)
    (wid topic : String) (tl : Nat) (qt : ℚ)
    (h : hasError (fr (freshContext wid topic tl qt)) = true ∨
          hasError (fw (fr (freshContext wid topic tl qt))) = true ∨
          hasError (fe (fw (fr (freshContext wid topic tl qt)))) = true) :
    (smExecuteWorkflow (fun c => (runPipeline fr fw fe c).1) wid topic tl
        qt).current_state = WorkflowState.error ∧
    (smExecuteWorkflow (fun c => (runPipeline fr fw fe c).1) wid topic tl
        qt).error_message
      = some ("Workflow execution failed: " ++ invalidUpdateError) ∧
    (runPipeline fr fw fe (freshContext wid topic tl qt)).1
      = .error invalidUpdateError ∧
    (hasError (fr (freshContext wid topic tl qt)) = true →
      (runPipeline fr fw fe (freshContext wid topic tl qt)).2
        = [PhaseNode.research, PhaseNode.write, PhaseNode.errorHandler]) ∧
    (hasError (fr (freshContext wid topic tl qt)) = false →
      hasError (fw (fr (freshContext wid topic tl qt))) = true →
      (runPipeline fr fw fe (freshContext wid topic tl qt)).2
        = [PhaseNode.research, PhaseNode.write, PhaseNode.edit,
            PhaseNode.errorHandler]) ∧
    (hasError (fr (freshContext wid topic tl qt)) = false →
      hasError (fw (fr (freshContext wid topic tl qt))) = false →
      (runPipeline fr fw fe (freshContext wid topic tl qt)).2
        = [PhaseNode.research, PhaseNode.write, PhaseNode.edit,
            PhaseNode.complete, PhaseNode.errorHandler]) := by
  have hrun : (runPipeline fr fw fe (freshContext wid topic tl qt)).1
      = .error invalidUpdateError ∧
      (hasError (fr (freshContext wid topic tl qt)) = true →
        (runPipeline fr fw fe (freshContext wid topic tl qt)).2
          = [PhaseNode.research, PhaseNode.write, PhaseNode.errorHandler]) ∧
      (hasError (fr (freshContext wid topic tl qt)) = false →
        hasError (fw (fr (freshContext wid topic tl qt))) = true →
        (runPipeline fr fw fe (freshContext wid topic tl qt)).2
          = [PhaseNode.research, PhaseNode.write, PhaseNode.edit,
              PhaseNode.errorHandler]) ∧
      (hasError (fr (freshContext wid topic tl qt)) = false →
        hasError (fw (fr (freshContext wid topic tl qt))) = false →
        (runPipeline fr fw fe (freshContext wid topic tl qt)).2
          = [PhaseNode.research, PhaseNode.write, PhaseNode.edit,
              PhaseNode.complete, PhaseNode.errorHandler]) := by
    unfold runPipeline
    cases h1 : hasError (fr (freshContext wid topic tl qt)) <;>
      cases h2 : hasError (fw (fr (freshContext wid topic tl qt))) <;>
        cases h3 : hasError (fe (fw (fr (freshContext wid topic tl qt)))) <;>
          simp_all
  refine ⟨?_, ?_, hrun.1, hrun.2.1, hrun.2.2.1, hrun.2.2.2⟩ <;>
    simp [smExecuteWorkflow, hrun.1, errorHandler]

/-- C2 witness: a research handler that records a failure message; the
run executes research, then write and the error handler together,
aborts, and `execute_workflow` returns the Error-marked context. -/
theorem c2_error_runs_next_phase_then_aborts_witness :
    (smExecuteWorkflow
      (fun c => (runPipeline
        (fun c => { c with error_message := some "Research failed: boom" })
        id id c).1) "w1" "t" 1500 (8/10)).current_state
      = WorkflowState.error ∧
    (runPipeline
      (fun c => { c with error_message := some "Research failed: boom" })
      id id (freshContext "w1" "t" 1500 (8/10))).2
      = [PhaseNode.research, PhaseNode.write, PhaseNode.errorHandler] := by
  have hmain := c2_error_runs_next_phase_then_aborts
    (fun c => { c with error_message := some "Research failed: boom" })
    id id "w1" "t" 1500 (8/10) (Or.inl (by decide))
  exact ⟨hmain.1, hmain.2.2.2.1 (by decide)⟩

/-! ## Claim C4: the agent retry budget -/

/-- C4 counterexample: with an implementation that raises `boom` on every
call, `BaseAgent.execute` invokes it 4 times — one initial attempt plus
`max_retries = 3` retries — not at most 3 times as claimed. -/
theorem c4_at_most_three_calls_cex :
    (agentExecute (fun _ => (Except.error "boom" : Except String Nat))).calls = 4 ∧
    ¬ (agentExecute (fun _ => (Except.error "boom" : Except String Nat))).calls ≤ 3 :=
  ⟨by decide, by decide⟩

/-- C4 (amended): for an implementation that raises on every call with
messages that do not mention the tracing service, `execute` invokes it
exactly 4 times (one initial attempt plus up to 3 retries), sleeps
`2 * 2 ^ (k - 1)` seconds before the k-th retry — the exponentially
increasing delays 2, 4, 8 from base delay 2 — and after exhausting the
budget propagates the error raised by the last (4th) call. -/
theorem c4_retry_budget_four_calls (impl : Nat → Except String α)
    (msg : Nat → String) (himpl : ∀ n, impl n = .error (msg n))
    (htrace : ∀ n, mentionsTracing (msg n) = false) :
    (agentExecute impl).calls = 4 ∧
    (agentExecute impl).sleeps = [2, 4, 8] ∧
    (agentExecute impl).result = .error (msg 3) := by
  simp [agentExecute, agentExecLoop, agentAttempt, himpl, htrace]

/-- C4 witness: the always–failing implementation raising `boom`. -/
theorem c4_retry_budget_four_calls_witness :
    (agentExecute (fun _ => (Except.error "boom" : Except String Unit))).calls = 4 ∧
    (agentExecute (fun _ => (Except.error "boom" : Except String Unit))).sleeps
        = [2, 4, 8] ∧
    (agentExecute (fun _ => (Except.error "boom" : Except String Unit))).result
        = .error "boom" :=
  c4_retry_budget_four_calls (fun _ => .error "boom") (fun _ => "boom")
    (fun _ => rfl) (fun _ => (by decide : mentionsTracing "boom" = false))

/-! ## Claim C9: task progress stays in the unit interval -/

/-- C9: starting from a fresh agent state, any sequence of lifecycle
calls — `start_task`, `update_progress` with an arbitrary argument,
`complete_task`, `handle_error`, `reset` — leaves `task_progress` within
[0, 1]; and `update_progress` clamps its argument into [0, 1] from any
state. -/
theorem c9_progress_in_unit_interval (agent_id : String)
    (ops : List LifecycleOp) :
    (0 ≤ (ops.foldl applyLifecycle (initialAgentState agent_id)).task_progress ∧
      (ops.foldl applyLifecycle (initialAgentState agent_id)).task_progress ≤ 1) ∧
    ∀ (s : AgentState) (p : ℚ),
      0 ≤ (applyLifecycle s (.updateProgress p)).task_progress ∧
        (applyLifecycle s (.updateProgress p)).task_progress ≤ 1 := by
  have hclamp : ∀ (s : AgentState) (p : ℚ),
      0 ≤ (applyLifecycle s (.updateProgress p)).task_progress ∧
        (applyLifecycle s (.updateProgress p)).task_progress ≤ 1 := by
    intro s p
    constructor
    · exact le_max_left 0 (min 1 p)
    · exact max_le (by norm_num) (min_le_left 1 p)
  refine ⟨?_, hclamp⟩
  have hstep : ∀ (s : AgentState) (op : LifecycleOp),
      0 ≤ s.task_progress ∧ s.task_progress ≤ 1 →
        0 ≤ (applyLifecycle s op).task_progress ∧
          (applyLifecycle s op).task_progress ≤ 1 := by
    intro s op hs
    cases op with
    | startTask d => simp [applyLifecycle]
    | updateProgress p => exact hclamp s p
    | completeTask => simp [applyLifecycle]
    | handleError c m => simpa [applyLifecycle] using hs
    | reset => simp [applyLifecycle, initialAgentState]
  have hfold : ∀ (l : List LifecycleOp) (s : AgentState),
      0 ≤ s.task_progress ∧ s.task_progress ≤ 1 →
        0 ≤ (l.foldl applyLifecycle s).task_progress ∧
          (l.foldl applyLifecycle s).task_progress ≤ 1 := by
    intro l
    induction l with
    | nil => intro s hs; exact hs
    | cons op rest ih => intro s hs; exact ih _ (hstep s op hs)
  exact hfold ops _ ⟨le_refl 0, by simp [initialAgentState]⟩

/-! ## Association-list helpers (Python dicts are insertion-ordered maps) -/

/-- `lookup` misses exactly the keys absent from the map. -/
theorem assoc_lookup_none_iff {β : Type} (l : List (String × β)) (k : String) :
    l.lookup k = none ↔ k ∉ l.map Prod.fst := by
  induction l with
  | nil => simp
  | cons p t ih =>
    obtain ⟨k1, v⟩ := p
    rw [List.lookup_cons]
    by_cases hk : k = k1
    · subst hk; simp
    · have hb : (k == k1) = false := by simpa using hk
      simp [hb, ih, hk]

/-- In a map with distinct keys, a present key owns exactly one entry. -/
theorem assoc_filter_key_length_one {β : Type} (l : List (String × β))
    (k : String) (hnd : (l.map Prod.fst).Nodup) (hk : k ∈ l.map Prod.fst) :
    (l.filter fun p => p.1 == k).length = 1 := by
  induction l with
  | nil => simp at hk
  | cons p t ih =>
    obtain ⟨k1, v⟩ := p
    simp only [List.map_cons, List.nodup_cons, List.mem_cons] at hnd hk
    rcases hk with hk | hk
    · subst hk
      have h0 : (t.filter fun p => p.1 == k).length = 0 := by
        rw [List.length_eq_zero, List.filter_eq_nil_iff]
        intro a ha hpa
        simp only [beq_iff_eq] at hpa
        exact hnd.1 (hpa ▸ List.mem_map_of_mem Prod.fst ha)
      simp [List.filter_cons, h0]
    · have hne : k1 ≠ k := fun he => hnd.1 (he ▸ hk)
      have : (k1 == k) = false := by simpa using hne
      simp [List.filter_cons, this, ih hnd.2 hk]

/-- An absent key owns no entry. -/
theorem assoc_filter_key_length_zero {β : Type} (l : List (String × β))
    (k : String) (hk : k ∉ l.map Prod.fst) :
    (l.filter fun p => p.1 == k).length = 0 := by
  rw [List.length_eq_zero, List.filter_eq_nil_iff]
  intro a ha hpa
  apply hk
  simp only [beq_iff_eq] at hpa
  rw [← hpa]
  exact List.mem_map_of_mem Prod.fst ha

/-! ## Claim C3: `store_memory` is an idempotent, deduplicating write -/

/-- C3: storing the same content twice (with any deterministic digest and
embedding provider) returns the same content hash both times, the second
call leaves the store exactly as the first left it, and the store holds
exactly one entry under that hash.  The no-dup hypothesis is the store's
dict invariant: a Python dict has distinct keys. -/
theorem c3_store_memory_idempotent {V : Type} (hash : String → String)
    (embed : String → V) (st : MemoryStore V) (content memory_type : String)
    (importance : ℚ) (metadata : List (String × String))
    (agent_id : Option String) (hnd : (storeKeys st).Nodup) :
    (storeMemory hash embed
        (storeMemory hash embed st content memory_type importance metadata
          agent_id).2 content memory_type importance metadata agent_id).1
      = (storeMemory hash embed st content memory_type importance metadata
          agent_id).1 ∧
    (storeMemory hash embed
        (storeMemory hash embed st content memory_type importance metadata
          agent_id).2 content memory_type importance metadata agent_id).2
      = (storeMemory hash embed st content memory_type importance metadata
          agent_id).2 ∧
    ((storeMemory hash embed st content memory_type importance metadata
        agent_id).2.filter fun p => p.1 == hash content).length = 1 := by
  unfold storeMemory
  cases hlk : st.lookup (hash content) with
  | some v =>
    have hmem : hash content ∈ st.map Prod.fst := by
      by_contra hmem
      rw [← assoc_lookup_none_iff] at hmem
      simp [hmem] at hlk
    simp only [hlk]
    exact ⟨trivial, trivial, assoc_filter_key_length_one st _ hnd hmem⟩
  | none =>
    have hmem : hash content ∉ st.map Prod.fst :=
      (assoc_lookup_none_iff st _).mp hlk
    have hlk2 : (st ++ [(hash content,
        (⟨hash content, content, memory_type, importance, metadata, agent_id,
          embed content⟩ : Memory V))]).lookup (hash content)
        = some ⟨hash content, content, memory_type, importance, metadata,
            agent_id, embed content⟩ := by
      rw [List.lookup_append, hlk]
      simp [List.lookup_cons]
    simp only [hlk, hlk2]
    refine ⟨trivial, trivial, ?_⟩
    rw [List.filter_append]
    simp [List.length_append, assoc_filter_key_length_zero st _ hmem,
      List.filter_cons]

/-- C3 witness: the identity digest, a constant embedding and the empty
store. -/
theorem c3_store_memory_idempotent_witness :
    (storeMemory (fun s => s) (fun _ => (0 : ℚ))
        (storeMemory (fun s => s) (fun _ => (0 : ℚ)) [] "abc" "general"
          (1/2) [] none).2 "abc" "general" (1/2) [] none).1
      = (storeMemory (fun s => s) (fun _ => (0 : ℚ)) [] "abc" "general"
          (1/2) [] none).1 ∧
    (storeMemory (fun s => s) (fun _ => (0 : ℚ))
        (storeMemory (fun s => s) (fun _ => (0 : ℚ)) [] "abc" "general"
          (1/2) [] none).2 "abc" "general" (1/2) [] none).2
      = (storeMemory (fun s => s) (fun _ => (0 : ℚ)) [] "abc" "general"
          (1/2) [] none).2 ∧
    ((storeMemory (fun s => s) (fun _ => (0 : ℚ)) [] "abc" "general"
        (1/2) [] none).2.filter fun p => p.1 == "abc").length = 1 :=
  c3_store_memory_idempotent (fun s => s) (fun _ => (0 : ℚ)) [] "abc"
    "general" (1/2) [] none (by decide)

/-- Deleting by key commutes with projecting the keys. -/
theorem assoc_eraseP_map_fst {β : Type} (l : List (String × β)) (i : String) :
    ((l.eraseP fun p => p.1 == i).map Prod.fst)
      = (l.map Prod.fst).eraseP (fun k => k == i) := by
  induction l with
  | nil => simp
  | cons p t ih =>
    by_cases hp : p.1 = i
    · simp [List.eraseP_cons, hp]
    · have hb : (p.1 == i) = false := by simpa using hp
      simp [List.eraseP_cons, hb, ih]

/-! ## Claim C10: the registration maps stay keyed identically -/

/-- C10: after any sequence of `register_agent`/`unregister_agent` calls
on a fresh hub, the agents directory, the mailbox map and the handler
map have identical key sequences; moreover a duplicate registration and
an unregistration of an unknown id are rejected (`False`) with the whole
hub unchanged. -/
theorem c10_registry_maps_keyed_identically (ops : List HubOp) (h : Hub)
    (agent_id agent_name : String) (withHandler : Bool) :
    hubKeysEq (ops.foldl applyHubOp emptyHub) ∧
    ((h.agents.lookup agent_id).isSome →
      hubRegister h agent_id agent_name withHandler = (false, h)) ∧
    ((h.agents.lookup agent_id).isNone →
      hubUnregister h agent_id = (false, h)) := by
  refine ⟨?_, ?_, ?_⟩
  · have hstep : ∀ (g : Hub) (op : HubOp),
        hubKeysEq g → hubKeysEq (applyHubOp g op) := by
      intro g op hg
      obtain ⟨hq, hh⟩ := hg
      cases op with
      | register i n w =>
        by_cases hl : (g.agents.lookup i).isSome
        · simp [applyHubOp, hubRegister, hl]; exact ⟨hq, hh⟩
        · simp only [applyHubOp, hubRegister, hl, if_false, Bool.false_eq_true]
          exact ⟨by simp [hq], by simp [hh]⟩
      | unregister i =>
        by_cases hl : (g.agents.lookup i).isNone
        · simp [applyHubOp, hubUnregister, hl]; exact ⟨hq, hh⟩
        · simp only [applyHubOp, hubUnregister, hl, if_false, Bool.false_eq_true]
          exact ⟨by rw [assoc_eraseP_map_fst, assoc_eraseP_map_fst, hq],
            by rw [assoc_eraseP_map_fst, assoc_eraseP_map_fst, hh]⟩
    have hfold : ∀ (l : List HubOp) (g : Hub), hubKeysEq g →
        hubKeysEq (l.foldl applyHubOp g) := by
      intro l
      induction l with
      | nil => intro g hg; exact hg
      | cons op rest ih => intro g hg; exact ih _ (hstep g op hg)
    exact hfold ops emptyHub ⟨rfl, rfl⟩
  · intro hs
    simp [hubRegister, hs]
  · intro hn
    simp [hubUnregister, hn]

/-- C10 witness: a register–register–unregister run keeps the three maps
keyed identically, a duplicate registration is rejected unchanged, and
unregistering an unknown id is rejected unchanged. -/
theorem c10_registry_maps_keyed_identically_witness :
    hubKeysEq ([HubOp.register "a" "Alice" true,
        HubOp.register "b" "Bob" false,
        HubOp.unregister "a"].foldl applyHubOp emptyHub) ∧
    (hubRegister (applyHubOp emptyHub (.register "a" "Alice" true)) "a" "Ann"
        false
      = (false, applyHubOp emptyHub (.register "a" "Alice" true))) ∧
    hubUnregister emptyHub "z" = (false, emptyHub) := by
  refine ⟨(c10_registry_maps_keyed_identically _ emptyHub "z" "Zed" false).1,
    (c10_registry_maps_keyed_identically ([] : List HubOp)
      (applyHubOp emptyHub (.register "a" "Alice" true)) "a" "Ann"
      false).2.1 (by decide),
    (c10_registry_maps_keyed_identically ([] : List HubOp) emptyHub "z" "Zed"
      false).2.2 (by decide)⟩

/-- Updating the entry at one key changes that key's lookup by the update
function. -/
theorem assoc_lookup_mapUpdate_self {β : Type} (l : List (String × β))
    (k : String) (f : β → β) :
    (l.map fun p => if p.1 = k then (p.1, f p.2) else p).lookup k
      = (l.lookup k).map f := by
  induction l with
  | nil => simp
  | cons p t ih =>
    obtain ⟨k1, v⟩ := p
    by_cases hk : k1 = k
    · subst hk
      simp [List.lookup_cons, ih]
    · have hb : (k == k1) = false := by
        simpa using fun he => hk he.symm
      simp [List.lookup_cons, hk, hb, ih]

/-- Updating the entry at one key leaves every other key's lookup
unchanged. -/
theorem assoc_lookup_mapUpdate_ne {β : Type} (l : List (String × β))
    (k a : String) (f : β → β) (hne : a ≠ k) :
    (l.map fun p => if p.1 = k then (p.1, f p.2) else p).lookup a
      = l.lookup a := by
  induction l with
  | nil => simp
  | cons p t ih =>
    obtain ⟨k1, v⟩ := p
    by_cases hk : k1 = k
    · subst hk
      have hb : (a == k1) = false := by simpa using hne
      simp [List.lookup_cons, hb, ih]
    · by_cases ha : a = k1
      · subst ha
        simp [List.lookup_cons, hk]
      · have hb : (a == k1) = false := by simpa using ha
        simp [List.lookup_cons, hk, hb, ih]

/-- What one successful `send_message` does: returns `True`, appends the
message to the recipient's mailbox and touches nothing else. -/
theorem hubSend_spec (h : Hub) (now : Nat) (s : AgentMsg)
    (q : List AgentMsg)
    (hra : (h.agents.lookup s.recipient_id).isSome = true)
    (hq : h.message_queues.lookup s.recipient_id = some q)
    (he : msgExpired now s = false) :
    (hubSend h now s).1 = true ∧
    (hubSend h now s).2.agents = h.agents ∧
    (hubSend h now s).2.message_queues.lookup s.recipient_id
      = some (q ++ [s]) ∧
    (∀ a, a ≠ s.recipient_id →
      (hubSend h now s).2.message_queues.lookup a
        = h.message_queues.lookup a) ∧
    (hubSend h now s).2.message_handlers = h.message_handlers ∧
    (hubSend h now s).2.next_id = h.next_id := by
  cases hxa : h.agents.lookup s.recipient_id with
  | none => rw [hxa] at hra; simp at hra
  | some nm =>
    unfold hubSend
    rw [hxa, hq]
    simp only [Option.isNone_some, Bool.false_eq_true, if_false, he]
    refine ⟨trivial, trivial, ?_, ?_, trivial, trivial⟩
    · rw [assoc_lookup_mapUpdate_self h.message_queues s.recipient_id
        (fun qq => qq ++ [s]), hq]
      rfl
    · intro a hne
      exact assoc_lookup_mapUpdate_ne h.message_queues s.recipient_id a
        (fun qq => qq ++ [s]) hne

/-- What `get_messages` does on a known mailbox: drains the whole queue
in order, leaves it empty and touches no other mailbox. -/
theorem hubGetMessages_spec (h : Hub) (agent_id : String)
    (q : List AgentMsg) (hq : h.message_queues.lookup agent_id = some q) :
    (hubGetMessages h agent_id).1 = q ∧
    (hubGetMessages h agent_id).2.message_queues.lookup agent_id
      = some [] ∧
    (∀ a, a ≠ agent_id →
      (hubGetMessages h agent_id).2.message_queues.lookup a
        = h.message_queues.lookup a) := by
  unfold hubGetMessages
  rw [hq]
  refine ⟨rfl, ?_, ?_⟩
  · rw [assoc_lookup_mapUpdate_self h.message_queues agent_id (fun _ => []),
      hq]
    rfl
  · intro a hne
    exact assoc_lookup_mapUpdate_ne h.message_queues agent_id a
      (fun _ => []) hne

/-! ## Claim C5: FIFO, exactly-once delivery to one mailbox -/

/-- C5: sending two non-expired messages to a registered recipient `R`,
first `s1` then `s2`, succeeds both times; draining `R`'s mailbox yields
its prior contents followed by `s1` then `s2` (send order), leaves the
mailbox empty so that a second drain yields nothing (consumed once), and
no other agent's mailbox changes (delivered to exactly one mailbox).
When `s1` and `s2` are distinct and not already queued, each occurs
exactly once in the drained batch. -/
theorem c5_fifo_exactly_once (h : Hub) (now1 now2 : Nat) (R : String)
    (s1 s2 : AgentMsg) (q0 : List AgentMsg)
    (hra : (h.agents.lookup R).isSome = true)
    (hq : h.message_queues.lookup R = some q0)
    (hr1 : s1.recipient_id = R) (hr2 : s2.recipient_id = R)
    (he1 : msgExpired now1 s1 = false) (he2 : msgExpired now2 s2 = false) :
    (hubSend h now1 s1).1 = true ∧
    (hubSend (hubSend h now1 s1).2 now2 s2).1 = true ∧
    (hubGetMessages (hubSend (hubSend h now1 s1).2 now2 s2).2 R).1
      = q0 ++ [s1, s2] ∧
    (hubGetMessages
      (hubGetMessages (hubSend (hubSend h now1 s1).2 now2 s2).2 R).2 R).1
      = [] ∧
    (∀ a, a ≠ R →
      (hubSend (hubSend h now1 s1).2 now2 s2).2.message_queues.lookup a
        = h.message_queues.lookup a) ∧
    (s1 ∉ q0 → s2 ∉ q0 → s1 ≠ s2 →
      (q0 ++ [s1, s2]).count s1 = 1 ∧ (q0 ++ [s1, s2]).count s2 = 1) := by
  subst hr1
  obtain ⟨hok1, hag1, hq1, hoth1, _, _⟩ := hubSend_spec h now1 s1 q0 hra hq he1
  have hra2 : ((hubSend h now1 s1).2.agents.lookup s2.recipient_id).isSome
      = true := by rw [hag1, hr2]; exact hra
  have hq2in : (hubSend h now1 s1).2.message_queues.lookup s2.recipient_id
      = some (q0 ++ [s1]) := by rw [hr2]; exact hq1
  obtain ⟨hok2, hag2, hq2, hoth2, _, _⟩ :=
    hubSend_spec (hubSend h now1 s1).2 now2 s2 (q0 ++ [s1]) hra2 hq2in he2
  rw [hr2] at hq2 hoth2
  rw [List.append_assoc] at hq2
  obtain ⟨hg1, hg2, _⟩ :=
    hubGetMessages_spec (hubSend (hubSend h now1 s1).2 now2 s2).2
      s1.recipient_id (q0 ++ [s1, s2]) hq2
  obtain ⟨hg3, _, _⟩ :=
    hubGetMessages_spec
      (hubGetMessages (hubSend (hubSend h now1 s1).2 now2 s2).2
        s1.recipient_id).2 s1.recipient_id [] hg2
  refine ⟨hok1, hok2, hg1, hg3, ?_, ?_⟩
  · intro a hne
    rw [hoth2 a (hr2 ▸ hne), hoth1 a hne]
  · intro hn1 hn2 hne
    have hc1 : q0.count s1 = 0 := List.count_eq_zero.mpr hn1
    have hc2 : q0.count s2 = 0 := List.count_eq_zero.mpr hn2
    have hb1 : (s1 == s2) = false := by simpa using hne
    have hb2 : (s2 == s1) = false := by simpa using fun a => hne a.symm
    refine ⟨?_, ?_⟩ <;> rw [List.count_append] <;>
      simp [hc1, hc2, List.count_cons, hb1, hb2]

/-- C5 witness: two agents `r` and `x`, two fresh messages sent to `r`,
drained in send order, mailbox left empty, `x` untouched. -/
theorem c5_fifo_exactly_once_witness :
    (hubSend
      { agents := [("r", "R"), ("x", "X")]
        message_queues := [("r", []), ("x", [])]
        message_handlers := [("r", 0), ("x", 0)] } 0
      { id := 0, recipient_id := "r" }).1 = true ∧
    (hubGetMessages
      (hubSend
        (hubSend
          { agents := [("r", "R"), ("x", "X")]
            message_queues := [("r", []), ("x", [])]
            message_handlers := [("r", 0), ("x", 0)] } 0
          { id := 0, recipient_id := "r" }).2 0
        { id := 1, recipient_id := "r" }).2 "r").1
      = [{ id := 0, recipient_id := "r" }, { id := 1, recipient_id := "r" }] ∧
    ([({ id := 0, recipient_id := "r" } : AgentMsg),
        { id := 1, recipient_id := "r" }].count
      ({ id := 0, recipient_id := "r" } : AgentMsg)) = 1 := by
  have hmain := c5_fifo_exactly_once
    { agents := [("r", "R"), ("x", "X")]
      message_queues := [("r", []), ("x", [])]
      message_handlers := [("r", 0), ("x", 0)] } 0 0 "r"
    { id := 0, recipient_id := "r" } { id := 1, recipient_id := "r" } []
    (by decide) (by decide) (by decide) (by decide) (by decide) (by decide)
  exact ⟨hmain.1, hmain.2.2.1,
    (hmain.2.2.2.2.2 (by decide) (by decide) (by decide)).1⟩

/-! ## Claim C6: broadcast from one of three agents -/

/-- C6 counterexample: broadcasting an *expired* message in a hub of 3
registered agents with `exclude_sender = true` delivers to nobody and
returns `sent_count = 0`, not 2 — each per-recipient copy inherits
`expires_at` and `send_message` rejects it, so the claim does not hold
for every message. -/
theorem c6_broadcast_two_of_three_cex :
    (hubBroadcast
      { agents := [("a", "A"), ("b", "B"), ("c", "C")]
        message_queues := [("a", []), ("b", []), ("c", [])]
        message_handlers := [("a", 0), ("b", 0), ("c", 0)]
        next_id := 5 } 10
      { id := 0, sender_id := "a", expires_at := some 3 } true).1 = 0 ∧
    ¬ (hubBroadcast
      { agents := [("a", "A"), ("b", "B"), ("c", "C")]
        message_queues := [("a", []), ("b", []), ("c", [])]
        message_handlers := [("a", 0), ("b", 0), ("c", 0)]
        next_id := 5 } 10
      { id := 0, sender_id := "a", expires_at := some 3 } true).1 = 2 ∧
    (hubBroadcast
      { agents := [("a", "A"), ("b", "B"), ("c", "C")]
        message_queues := [("a", []), ("b", []), ("c", [])]
        message_handlers := [("a", 0), ("b", 0), ("c", 0)]
        next_id := 5 } 10
      { id := 0, sender_id := "a", expires_at := some 3 } true).2.message_queues
      = [("a", []), ("b", []), ("c", [])] :=
  ⟨by decide, by decide, by decide⟩

/-- C6 (amended): for a hub with exactly 3 registered agents one of which
is the sender, broadcasting a *non-expired* message with
`exclude_sender = true` enqueues an independent copy with a fresh
counter-drawn id (`next_id`, then `next_id + 1`) into exactly the 2
mailboxes of the non-sender agents — the sender's mailbox is untouched —
and returns a sent count of 2, advancing the id counter by 2. -/
theorem c6_broadcast_two_of_three (h : Hub) (now : Nat) (msg : AgentMsg)
    (a b c na nb nc : String) (qa qb qc : List AgentMsg)
    (hag : h.agents = [(a, na), (b, nb), (c, nc)])
    (hq : h.message_queues = [(a, qa), (b, qb), (c, qc)])
    (hab : a ≠ b) (hac : a ≠ c) (hbc : b ≠ c)
    (hs : msg.sender_id = a ∨ msg.sender_id = b ∨ msg.sender_id = c)
    (hexp : msgExpired now msg = false) :
    (hubBroadcast h now msg true).1 = 2 ∧
    (hubBroadcast h now msg true).2.next_id = h.next_id + 2 ∧
    (msg.sender_id = a →
      (hubBroadcast h now msg true).2.message_queues
        = [(a, qa), (b, qb ++ [mkBroadcastCopy msg b h.next_id]),
            (c, qc ++ [mkBroadcastCopy msg c (h.next_id + 1)])]) ∧
    (msg.sender_id = b →
      (hubBroadcast h now msg true).2.message_queues
        = [(a, qa ++ [mkBroadcastCopy msg a h.next_id]), (b, qb),
            (c, qc ++ [mkBroadcastCopy msg c (h.next_id + 1)])]) ∧
    (msg.sender_id = c →
      (hubBroadcast h now msg true).2.message_queues
        = [(a, qa ++ [mkBroadcastCopy msg a h.next_id]),
            (b, qb ++ [mkBroadcastCopy msg b (h.next_id + 1)]), (c, qc)]) := by
  have hms : ∀ (x : String) (k : Nat),
      msgExpired now (mkBroadcastCopy msg x k) = false := fun _ _ => hexp
  have hrec : ∀ (x : String) (k : Nat),
      (mkBroadcastCopy msg x k).recipient_id = x := fun _ _ => rfl
  have hba : (b == a) = false := by simpa using fun e => hab e.symm
  have hca : (c == a) = false := by simpa using fun e => hac e.symm
  have hcb : (c == b) = false := by simpa using fun e => hbc e.symm
  have habb : (a == b) = false := by simpa using hab
  have hacb : (a == c) = false := by simpa using hac
  have hbcb : (b == c) = false := by simpa using hbc
  rcases hs with hsx | hsx | hsx <;>
    refine ⟨?_, ?_, ?_, ?_, ?_⟩ <;>
      first
        | (intro hsy;
           first
             | (exact absurd (hsx.symm.trans hsy) (by assumption))
             | (exact absurd (hsy.symm.trans hsx) (by assumption))
             | skip) <;>
          simp [hubBroadcast, hubSend, hag, hq, hsx, hms, hrec,
            List.lookup_cons, hba, hca, hcb, habb, hacb, hbcb,
            hab, hac, hbc, Ne.symm hab, Ne.symm hac, Ne.symm hbc]
        | simp [hubBroadcast, hubSend, hag, hq, hsx, hms, hrec,
            List.lookup_cons, hba, hca, hcb, habb, hacb, hbcb,
            hab, hac, hbc, Ne.symm hab, Ne.symm hac, Ne.symm hbc]

/-- C6 witness: three agents `a`, `b`, `c`; agent `a` broadcasts a fresh
message; `b` and `c` each receive one copy with ids 5 and 6 and the
count is 2. -/
theorem c6_broadcast_two_of_three_witness :
    (hubBroadcast
      { agents := [("a", "A"), ("b", "B"), ("c", "C")]
        message_queues := [("a", []), ("b", []), ("c", [])]
        message_handlers := [("a", 0), ("b", 0), ("c", 0)]
        next_id := 5 } 0
      { id := 0, sender_id := "a" } true).1 = 2 ∧
    (hubBroadcast
      { agents := [("a", "A"), ("b", "B"), ("c", "C")]
        message_queues := [("a", []), ("b", []), ("c", [])]
        message_handlers := [("a", 0), ("b", 0), ("c", 0)]
        next_id := 5 } 0
      { id := 0, sender_id := "a" } true).2.message_queues
      = [("a", []),
          ("b", [mkBroadcastCopy { id := 0, sender_id := "a" } "b" 5]),
          ("c", [mkBroadcastCopy { id := 0, sender_id := "a" } "c" 6])] := by
  have hmain := c6_broadcast_two_of_three
    { agents := [("a", "A"), ("b", "B"), ("c", "C")]
      message_queues := [("a", []), ("b", []), ("c", [])]
      message_handlers := [("a", 0), ("b", 0), ("c", 0)]
      next_id := 5 } 0
    { id := 0, sender_id := "a" } "a" "b" "c" "A" "B" "C" [] [] []
    rfl rfl (by decide) (by decide) (by decide) (Or.inl rfl) (by decide)
  exact ⟨hmain.1, hmain.2.2.1 rfl⟩

/-! ## Cosine-similarity mathematics -/

/-- A sum of squares is non-negative. -/
theorem normSqList_nonneg (a : List ℝ) : 0 ≤ normSqList a :=
  List.sum_nonneg fun x hx => by
    obtain ⟨y, _, rfl⟩ := List.mem_map.mp hx
    exact mul_self_nonneg y

/-- The dot product of a vector with itself is its squared norm. -/
theorem dotList_self (a : List ℝ) : dotList a a = normSqList a := by
  induction a with
  | nil => rfl
  | cons x t ih =>
    simp only [dotList, normSqList, List.zipWith_cons_cons, List.map_cons,
      List.sum_cons] at ih ⊢
    rw [ih]

/-- A vector with a non-zero entry has positive squared norm. -/
theorem normSqList_pos (a : List ℝ) (x : ℝ) (hx : x ∈ a) (hx0 : x ≠ 0) :
    0 < normSqList a := by
  induction a with
  | nil => simp at hx
  | cons y t ih =>
    have hsq : normSqList (y :: t) = y * y + normSqList t := by
      simp [normSqList]
    rcases List.mem_cons.mp hx with h | h
    · subst h
      rw [hsq]
      exact add_pos_of_pos_of_nonneg (mul_self_pos.mpr hx0)
        (normSqList_nonneg t)
    · rw [hsq]
      exact add_pos_of_nonneg_of_pos (mul_self_nonneg y) (ih h)

/-- Cauchy–Schwarz for list dot products (zip-truncating semantics). -/
theorem dotList_sq_le (a b : List ℝ) :
    dotList a b ^ 2 ≤ normSqList a * normSqList b := by
  induction a generalizing b with
  | nil => simp [dotList, normSqList]
  | cons x t ih =>
    cases b with
    | nil => simp [dotList, normSqList]
    | cons y u =>
      have hA := normSqList_nonneg t
      have hB := normSqList_nonneg u
      have hd := ih u
      have h1 : dotList (x :: t) (y :: u) = x * y + dotList t u := by
        simp [dotList]
      have h2 : normSqList (x :: t) = x * x + normSqList t := by
        simp [normSqList]
      have h3 : normSqList (y :: u) = y * y + normSqList u := by
        simp [normSqList]
      rw [h1, h2, h3]
      rcases eq_or_lt_of_le hA with hA0 | hA0
      · have hd0 : dotList t u = 0 := by nlinarith [sq_nonneg (dotList t u)]
        rw [hd0]
        nlinarith [sq_nonneg x, sq_nonneg y,
          mul_nonneg (mul_self_nonneg x) hB]
      · nlinarith [sq_nonneg (x * dotList t u - normSqList t * y),
          mul_nonneg hA hB,
          mul_nonneg (le_of_lt hA0) (sub_nonneg.mpr hd),
          mul_le_mul_of_nonneg_left hd (sq_nonneg x)]

/-- The dot product is bounded by the product of the norms. -/
theorem dotList_le_norms (a b : List ℝ) :
    dotList a b ≤ normList a * normList b := by
  have h1 : dotList a b ≤ |dotList a b| := le_abs_self _
  have h2 : |dotList a b| = Real.sqrt (dotList a b ^ 2) :=
    (Real.sqrt_sq_eq_abs _).symm
  have h3 : Real.sqrt (dotList a b ^ 2)
      ≤ Real.sqrt (normSqList a * normSqList b) :=
    Real.sqrt_le_sqrt (dotList_sq_le a b)
  have h4 : Real.sqrt (normSqList a * normSqList b)
      = normList a * normList b := by
    rw [normList, normList, ← Real.sqrt_mul (normSqList_nonneg a)]
  linarith

/-- The code's cosine similarity never exceeds 1. -/
theorem cosineSim_le_one (a b : List ℝ) : cosineSim a b ≤ 1 := by
  unfold cosineSim
  by_cases h : normList a = 0 ∨ normList b = 0
  · rw [if_pos h]
    norm_num
  · rw [if_neg h]
    push_neg at h
    have ha : 0 < normList a :=
      lt_of_le_of_ne (Real.sqrt_nonneg _) (Ne.symm h.1)
    have hb : 0 < normList b :=
      lt_of_le_of_ne (Real.sqrt_nonneg _) (Ne.symm h.2)
    rw [div_le_one (mul_pos ha hb)]
    exact dotList_le_norms a b

/-! ## Claim C7: cosine-similarity semantics -/

/-- C7: the memory manager's cosine similarity equals
`dot(a,b) / (norm a * norm b)` when both norms are non-zero, equals 0
when either norm is zero, and satisfies `cosine(a, a) = 1` exactly (the
real-arithmetic idealisation of ≈ 1.0) for every vector with a non-zero
entry. -/
theorem c7_cosine_semantics (a b : List ℝ) :
    (normList a ≠ 0 → normList b ≠ 0 →
      cosineSim a b = dotList a b / (normList a * normList b)) ∧
    ((normList a = 0 ∨ normList b = 0) → cosineSim a b = 0) ∧
    ((∃ x ∈ a, x ≠ 0) → cosineSim a a = 1) := by
  refine ⟨?_, ?_, ?_⟩
  · intro ha hb
    unfold cosineSim
    rw [if_neg]
    push_neg
    exact ⟨ha, hb⟩
  · intro h
    unfold cosineSim
    rw [if_pos h]
  · intro h
    obtain ⟨x, hx, hx0⟩ := h
    have hpos := normSqList_pos a x hx hx0
    have hna : normList a ≠ 0 :=
      ne_of_gt (Real.sqrt_pos.mpr hpos)
    unfold cosineSim
    rw [if_neg (by push_neg; exact ⟨hna, hna⟩), dotList_self]
    rw [show normList a * normList a = normSqList a from
      Real.mul_self_sqrt (normSqList_nonneg a)]
    exact div_self (ne_of_gt hpos)

/-- C7 witness: the one-entry vector `[1]` has cosine similarity 1 with
itself, and a zero-norm argument yields 0. -/
theorem c7_cosine_semantics_witness :
    cosineSim [(1 : ℝ)] [(1 : ℝ)] = 1 ∧
    cosineSim ([] : List ℝ) [(1 : ℝ)] = 0 :=
  ⟨(c7_cosine_semantics [(1 : ℝ)] [(1 : ℝ)]).2.2
      ⟨1, by simp, one_ne_zero⟩,
    (c7_cosine_semantics ([] : List ℝ) [(1 : ℝ)]).2.1
      (Or.inl (by simp [normList, normSqList]))⟩

/-! ## Claim C8: a similarity threshold of 1.1 filters out everything -/

/-- C8: for every embedding provider, store contents, query, type filter
and limit, `retrieve_similar_memories` called with
`similarity_threshold = 1.1` returns the empty list: cosine similarity
never exceeds 1, so no stored memory passes the threshold filter. -/
theorem c8_threshold_above_one_returns_empty (embed : String → List ℝ)
    (st : MemoryStore (List ℝ)) (query : String)
    (memory_type : Option String) (limit : Nat) :
    retrieveSimilarMemories embed st query memory_type limit (11 / 10) = [] := by
  have key : ∀ (l : List (Memory (List ℝ) × ℝ)) (pr : Memory (List ℝ) × ℝ → Bool)
      (le : Memory (List ℝ) × ℝ → Memory (List ℝ) × ℝ → Bool),
      (∀ x ∈ l, pr x = false) →
      ((l.filter pr).mergeSort le).take limit = [] := by
    intro l pr le hall
    rw [List.filter_eq_nil_iff.mpr fun a ha => by simp [hall a ha],
      List.mergeSort_nil, List.take_nil]
  unfold retrieveSimilarMemories
  by_cases hst : st.isEmpty = true
  · rw [if_pos hst]
  · rw [if_neg hst]
    refine key _ _ _ ?_
    intro x hx
    obtain ⟨p, hp, rfl⟩ := List.mem_map.mp hx
    have hle := cosineSim_le_one (embed query) p.2.embedding
    have hnot : ¬ ((11 : ℝ) / 10 ≤ cosineSim (embed query) p.2.embedding) := by
      linarith
    simp [hnot]

end Hemist
